import Mathlib

/-!
Shallow embedding of the schedule-viewer core of the Coachella 2025
schedule browser (the Svelte page component): time normalization,
the current-performance and stage filters, the chronological sort,
the artist search, the livestream resolver, and the festival-date
construction bridge.  Each definition mirrors one function or reactive
block of the source component.
-/

/-- A festival day.  The data model restricts the `day` field of a
performance, and the user's selected day, to Friday, Saturday, Sunday. -/
inductive Day where
  | friday
  | saturday
  | sunday
deriving DecidableEq

/-- The day name string as it appears in the JSON data and in the
livestream registry keys. -/
def Day.name : Day → String
  | .friday => "Friday"
  | .saturday => "Saturday"
  | .sunday => "Sunday"

/-- The `dayOrder` lookup table of the chronological sort:
Friday 0, Saturday 1, Sunday 2. -/
def dayRank : Day → Nat
  | .friday => 0
  | .saturday => 1
  | .sunday => 2

/-- JS `String.prototype.split` on a single separator character, over the
character list of the string. -/
def splitFields (sep : Char) : List Char → List (List Char)
  | [] => [[]]
  | c :: rest =>
    match splitFields sep rest with
    | [] => [[c]]
    | f :: fs => if c == sep then [] :: f :: fs else (c :: f) :: fs

/-- The numeric value of a decimal digit character. -/
def digitVal (c : Char) : Option Nat :=
  if c.isDigit then some (c.toNat - 48) else none

/-- JS `Number` on the fields produced by splitting a time string:
`Number("")` is `0`; a digit string parses to its value; any other string
is `NaN` in JS, modelled as `none` (such inputs are outside the data model
and no claim depends on them). -/
def jsNat (cs : List Char) : Option Nat :=
  cs.foldl
    (fun acc c =>
      match acc, digitVal c with
      | some n, some d => some (n * 10 + d)
      | _, _ => none)
    (some 0)

/-- The function `timeToMinutes` converts an `"HH:MM"` festival-time string to minutes
from midnight, re-expressing hours below 5 as 24..28 so that post-midnight
times order after the preceding evening.  A missing value (the falsy check
of the source; here the empty string) yields 0.  A string that does not
split into two numeric fields yields `NaN` arithmetic in the source; it is
outside the data model and modelled as 0. -/
def timeToMinutes (timeStr : String) : Nat :=
  if timeStr = "" then 0
  else
    match (splitFields ':' timeStr.data).map jsNat with
    | [some hours, some minutes] =>
        if hours < 5 then (hours + 24) * 60 + minutes else hours * 60 + minutes
    | _ => 0

/-- A row of `schedule.json`. -/
structure Performance where
  artist : String
  stage : String
  day : Day
  start : String
  «end» : String
deriving DecidableEq

/-- The performances current at `selectedTime` on `selectedDay`: the day
matches and `start <= selectedTime < end` on the normalized minute scale. -/
def performancesAtTime (schedule : List Performance) (selectedDay : Day)
    (selectedTime : Nat) : List Performance :=
  schedule.filter fun p =>
    decide (p.day = selectedDay) &&
    decide (timeToMinutes p.start ≤ selectedTime) &&
    decide (selectedTime < timeToMinutes p.«end»)

/-- Insertion-order deduplication keeping the first occurrence of each
element: the `[...new Set(xs)]` spread of the source. -/
def firstDedup : List String → List String
  | [] => []
  | a :: l => a :: (firstDedup l).filter (fun b => decide (b ≠ a))

/-- The comparison of the JS default `sort()` on the stage list:
lexicographic string order. -/
def strLe (a b : String) : Bool := decide (a ≤ b)

/-- The derivation `stagesForDay`: the distinct stages appearing in the schedule on the
selected day, lexicographically sorted. -/
def stagesForDay (schedule : List Performance) (selectedDay : Day) : List String :=
  (firstDedup ((schedule.filter (fun p => decide (p.day = selectedDay))).map
    Performance.stage)).mergeSort strLe

/-- A livestream registry value: either a single identifier, or a per-day
mapping from day name to identifier. -/
inductive LinkEntry where
  | single (id : String)
  | byDay (m : List (String × String))
deriving DecidableEq

/-- The `livestreamLinks` registry of the source.  Quasar has day-specific
links; Yuma has no entry. -/
def livestreamLinks : List (String × LinkEntry) :=
  [("Coachella Stage", .single "Y2FzDMuJ5pI"),
   ("Outdoor Theatre", .single "WxwawRL_nY8"),
   ("Sahara", .single "afO7r8TQTSw"),
   ("Mojave", .single "BajnpDN6vG8"),
   ("Gobi", .single "Kg-KswkXoBg"),
   ("Sonora", .single "TdHrgLciYWw"),
   ("Quasar", .byDay [("Friday", "1MOJG5VTh-Y"),
                      ("Saturday", "SreThbvUUI8"),
                      ("Sunday", "jKWRY1btTOs")])]

/-- The resolver `getLivestreamLink`: a plain string entry is returned for any day; a
per-day entry is looked up by the selected day name (absent day gives
`none`); a stage absent from the registry gives `none`.  The selected day
is a string in the source, so days outside the festival are expressible. -/
def getLivestreamLink (selectedDay : String) (stageName : String) : Option String :=
  match livestreamLinks.lookup stageName with
  | some (.single id) => some id
  | some (.byDay m) => m.lookup selectedDay
  | none => none

/-- The stage list after the hide-empty-stages toggle: stages of the day,
restricted (when the toggle is on) to those with a current performance. -/
def stagesAfterHideEmpty (schedule : List Performance) (selectedDay : Day)
    (selectedTime : Nat) (hideEmptyStages : Bool) : List String :=
  let base := stagesForDay schedule selectedDay
  if hideEmptyStages then
    base.filter (fun stage =>
      ((performancesAtTime schedule selectedDay selectedTime).map
        Performance.stage).contains stage)
  else base

/-- The `stages` reactive derivation: the day's stages, the hide-empty
filter, then the hide-no-stream filter (drop Yuma, the empty list before
16:00 festival time = 960 minutes, otherwise keep the stages that resolve
a livestream link). -/
def visibleStages (schedule : List Performance) (selectedDay : Day)
    (selectedTime : Nat) (hideEmptyStages hideNoStreamStages : Bool) : List String :=
  let afterEmpty := stagesAfterHideEmpty schedule selectedDay selectedTime hideEmptyStages
  if hideNoStreamStages then
    let noYuma := afterEmpty.filter (fun stage => decide (stage ≠ "Yuma"))
    if selectedTime < 960 then []
    else noYuma.filter (fun stage => (getLivestreamLink selectedDay.name stage).isSome)
  else afterEmpty

/-- The JS comparator of the chronological sort: the day-order difference
when the days differ, otherwise the start-minute difference. -/
def chronCompare (a b : Performance) : Int :=
  if dayRank a.day ≠ dayRank b.day then (dayRank a.day : Int) - dayRank b.day
  else (timeToMinutes a.start : Int) - timeToMinutes b.start

/-- The boolean order induced by the comparator (an element precedes
another when the comparator is nonpositive). -/
def chronLe (a b : Performance) : Bool := decide (chronCompare a b ≤ 0)

/-- The derivation `chronologicalPerformances`: the schedule stably sorted by the
comparator.  JS `Array.prototype.sort` is a stable sort; it is modelled by
`List.mergeSort` on the comparator-induced boolean order. -/
def chronologicalPerformances (schedule : List Performance) : List Performance :=
  schedule.mergeSort chronLe

/-- The needle occurs at the head of the haystack. -/
def charStartsWith : List Char → List Char → Bool
  | [], _ => true
  | _ :: _, [] => false
  | n :: ns, h :: hs => n == h && charStartsWith ns hs

/-- The needle occurs somewhere in the haystack: JS
`String.prototype.includes`. -/
def charIncludes (needle : List Char) : List Char → Bool
  | [] => needle.isEmpty
  | h :: t => charStartsWith needle (h :: t) || charIncludes needle t

/-- JS `hay.includes(needle)` on strings. -/
def strIncludes (hay needle : String) : Bool := charIncludes needle.data hay.data

/-- JS `String.prototype.toLowerCase`, character by character. -/
def strToLower (s : String) : String := String.mk (s.data.map Char.toLower)

/-- The falsy check `!term.trim()` of the source: the term trims to the
empty string exactly when every character is whitespace. -/
def isBlank (s : String) : Bool := s.data.all (fun c => c.isWhitespace)

/-- The body of `filteredChronologicalPerformances`: the search filter over
a performance sequence.  An empty or all-whitespace term keeps every
element; otherwise a case-insensitive substring match against the artist
name. -/
def searchFilter (seq : List Performance) (searchTerm : String) : List Performance :=
  seq.filter fun performance =>
    if isBlank searchTerm then true
    else strIncludes (strToLower performance.artist) (strToLower searchTerm)

/-- JS `String(n).padStart(2, "0")` on the hour and minute values. -/
def pad2 (n : Nat) : String :=
  if n < 10 then "0" ++ toString n else toString n

/-- The base calendar date of the selected day. -/
def baseDate : Day → String
  | .friday => "2025-04-11"
  | .saturday => "2025-04-12"
  | .sunday => "2025-04-13"

/-- The calendar date advanced to the following day, used when the minute
value indicates the next day. -/
def nextDate : Day → String
  | .friday => "2025-04-12"
  | .saturday => "2025-04-13"
  | .sunday => "2025-04-14"

/-- The primary date string handed to the external conversion: the selected
day's date (advanced when `minutes >= 1440`) with the hour and minute. -/
def primaryDateStr (selectedDay : Day) (minutesFromMidnight : Nat) : String :=
  let hours := minutesFromMidnight / 60 % 24
  let minutes := minutesFromMidnight % 60
  let dateStrDate :=
    if minutesFromMidnight ≥ 1440 then nextDate selectedDay else baseDate selectedDay
  dateStrDate ++ "T" ++ pad2 hours ++ ":" ++ pad2 minutes ++ ":00"

/-- The date string of the catch branch: the fixed date 2025-04-11 with the
same hour and minute. -/
def fallbackDateStr (minutesFromMidnight : Nat) : String :=
  "2025-04-11T" ++ pad2 (minutesFromMidnight / 60 % 24) ++ ":" ++
    pad2 (minutesFromMidnight % 60) ++ ":00"

/-- The bridge `createFestivalDate`, parameterized over the external `fromZonedTime`
of date-fns-tz, modelled as a fallible conversion from a date string to a
UTC timestamp.  The source wraps only the first conversion in try/catch;
the catch branch retries on the fallback string unguarded, so a failure of
that second conversion propagates to the caller. -/
def createFestivalDate (fromZonedTime : String → Except String Nat)
    (selectedDay : Day) (minutesFromMidnight : Nat) : Except String Nat :=
  match fromZonedTime (primaryDateStr selectedDay minutesFromMidnight) with
  | .ok d => .ok d
  | .error _ => fromZonedTime (fallbackDateStr minutesFromMidnight)

example : timeToMinutes "22:00" = 1320 := by decide
example : timeToMinutes "00:10" = 1450 := by decide
example : timeToMinutes "00:05" = 1445 := by decide
example : timeToMinutes "" = 0 := by decide
example : getLivestreamLink "Saturday" "Quasar" = some "SreThbvUUI8" := by decide
example : getLivestreamLink "Monday" "Quasar" = none := by decide
example : getLivestreamLink "Friday" "Yuma" = none := by decide
example : strIncludes (strToLower "dj snake") (strToLower "DJ") = true := by decide
example : isBlank "  " = true ∧ isBlank "DJ" = false := by decide

/-! ## Helper lemmas -/

theorem getLivestreamLink_yuma (day : String) : getLivestreamLink day "Yuma" = none := rfl

theorem mem_firstDedup {a : String} {l : List String} : a ∈ firstDedup l ↔ a ∈ l := by
  induction l with
  | nil => simp [firstDedup]
  | cons b l ih =>
    simp only [firstDedup, List.mem_cons, List.mem_filter, ih, decide_eq_true_iff]
    by_cases hab : a = b <;> simp [hab]

theorem nodup_firstDedup (l : List String) : (firstDedup l).Nodup := by
  induction l with
  | nil => simp [firstDedup]
  | cons b l ih =>
    simp only [firstDedup, List.nodup_cons]
    refine ⟨?_, ih.filter _⟩
    intro hmem
    have h := (List.mem_filter.mp hmem).2
    simp at h

theorem strLe_trans : ∀ a b c : String, strLe a b → strLe b c → strLe a c := by
  intro a b c hab hbc
  simp only [strLe, decide_eq_true_eq] at hab hbc ⊢
  exact le_trans hab hbc

theorem strLe_total : ∀ a b : String, strLe a b || strLe b a := by
  intro a b
  simp only [strLe, Bool.or_eq_true, decide_eq_true_eq]
  exact le_total a b

theorem sorted_stagesForDay (schedule : List Performance) (day : Day) :
    (stagesForDay schedule day).Sorted (· < ·) := by
  have hp : (stagesForDay schedule day).Sorted (· ≤ ·) := by
    have h := List.sorted_mergeSort strLe_trans strLe_total
      (firstDedup ((schedule.filter (fun p => decide (p.day = day))).map Performance.stage))
    exact h.imp (fun hab => by simpa [strLe] using hab)
  have hnd : (stagesForDay schedule day).Nodup := by
    have hperm := List.mergeSort_perm
      (firstDedup ((schedule.filter (fun p => decide (p.day = day))).map Performance.stage)) strLe
    exact (hperm.nodup_iff).mpr (nodup_firstDedup _)
  exact hp.lt_of_le hnd

theorem nodup_stagesForDay (schedule : List Performance) (day : Day) :
    (stagesForDay schedule day).Nodup := by
  have hperm := List.mergeSort_perm
    (firstDedup ((schedule.filter (fun p => decide (p.day = day))).map Performance.stage)) strLe
  exact (hperm.nodup_iff).mpr (nodup_firstDedup _)

theorem mem_stagesForDay {schedule : List Performance} {day : Day} {s : String} :
    s ∈ stagesForDay schedule day ↔ ∃ p ∈ schedule, p.day = day ∧ p.stage = s := by
  unfold stagesForDay
  rw [List.mem_mergeSort, mem_firstDedup]
  simp only [List.mem_map, List.mem_filter, decide_eq_true_eq]
  constructor
  · rintro ⟨p, ⟨hp, hd⟩, hs⟩
    exact ⟨p, hp, hd, hs⟩
  · rintro ⟨p, hp, hd, hs⟩
    exact ⟨p, ⟨hp, hd⟩, hs⟩

theorem chronLe_iff (a b : Performance) :
    chronLe a b = true ↔
      (dayRank a.day < dayRank b.day ∨
        (dayRank a.day = dayRank b.day ∧
          timeToMinutes a.start ≤ timeToMinutes b.start)) := by
  unfold chronLe chronCompare
  rw [decide_eq_true_eq]
  rcases eq_or_ne (dayRank a.day) (dayRank b.day) with h | h
  · rw [if_neg (fun hc => hc h)]
    omega
  · rw [if_pos h]
    omega

theorem chronLe_trans : ∀ a b c : Performance, chronLe a b → chronLe b c → chronLe a c := by
  intro a b c hab hbc
  rw [chronLe_iff] at hab hbc ⊢
  omega

theorem chronLe_total : ∀ a b : Performance, chronLe a b || chronLe b a := by
  intro a b
  rw [Bool.or_eq_true, chronLe_iff, chronLe_iff]
  omega

/-! ## Claims -/

/-- C1: `timeToMinutes` maps a missing (empty) input to 0; a time string
whose fields parse as hours `h` and minutes `m` maps to `(h+24)*60+m` when
`h < 5` and to `h*60+m` otherwise; consequently every valid post-midnight
time (hour in [0,4]) maps strictly above every evening-hour value (hour in
[5,23]). -/
theorem c1_timeToMinutes_spec :
    timeToMinutes "" = 0 ∧
    (∀ (s : String) (h m : Nat),
      (splitFields ':' s.data).map jsNat = [some h, some m] → s ≠ "" →
      timeToMinutes s = if h < 5 then (h + 24) * 60 + m else h * 60 + m) ∧
    (∀ (s t : String) (h m h' m' : Nat),
      (splitFields ':' s.data).map jsNat = [some h, some m] → s ≠ "" →
      (splitFields ':' t.data).map jsNat = [some h', some m'] → t ≠ "" →
      h < 5 → 5 ≤ h' → h' ≤ 23 → m' ≤ 59 →
      timeToMinutes t < timeToMinutes s) := by
  have key : ∀ (s : String) (h m : Nat),
      (splitFields ':' s.data).map jsNat = [some h, some m] → s ≠ "" →
      timeToMinutes s = if h < 5 then (h + 24) * 60 + m else h * 60 + m := by
    intro s h m hsplit hne
    unfold timeToMinutes
    rw [if_neg hne, hsplit]
  refine ⟨rfl, key, ?_⟩
  intro s t h m h' m' hs hsne ht htne hh hh' hh23 hm'
  rw [key s h m hs hsne, key t h' m' ht htne, if_pos hh, if_neg (by omega)]
  omega

/-- C1 witness: the concrete times 04:30 and 23:59. -/
theorem c1_timeToMinutes_spec_witness :
    timeToMinutes "04:30" = (if 4 < 5 then (4 + 24) * 60 + 30 else 4 * 60 + 30) ∧
    timeToMinutes "23:59" < timeToMinutes "04:30" :=
  ⟨c1_timeToMinutes_spec.2.1 "04:30" 4 30 (by decide) (by decide),
   c1_timeToMinutes_spec.2.2 "04:30" "23:59" 4 30 23 59 (by decide) (by decide)
     (by decide) (by decide) (by decide) (by decide) (by decide) (by decide)⟩

/-- C2: membership in `performancesAtTime` is exactly a day match plus the
half-open interval test `start <= minute < end` on normalized minutes; the
result is a subsequence of the schedule; and the midnight-crossing example
(start 22:00, end 00:10) is current at the minute of 00:05 but not at the
minute of 00:10. -/
theorem c2_performancesAtTime_spec :
    (∀ (schedule : List Performance) (day : Day) (minute : Nat) (p : Performance),
      p ∈ performancesAtTime schedule day minute ↔
        p ∈ schedule ∧ p.day = day ∧
          timeToMinutes p.start ≤ minute ∧ minute < timeToMinutes p.«end») ∧
    (∀ (schedule : List Performance) (day : Day) (minute : Nat),
      List.Sublist (performancesAtTime schedule day minute) schedule) ∧
    performancesAtTime [⟨"A", "S1", .friday, "22:00", "00:10"⟩] .friday
      (timeToMinutes "00:05") = [⟨"A", "S1", .friday, "22:00", "00:10"⟩] ∧
    performancesAtTime [⟨"A", "S1", .friday, "22:00", "00:10"⟩] .friday
      (timeToMinutes "00:10") = [] := by
  refine ⟨?_, ?_, by decide, by decide⟩
  · intro schedule day minute p
    simp [performancesAtTime, List.mem_filter, and_assoc]
  · intro schedule day minute
    exact List.filter_sublist _

/-- C3: with the hide-no-stream toggle enabled and a selected minute below
960 (16:00 festival time), the visible stage list is empty, for every
dataset, day and hide-empty toggle state. -/
theorem c3_visibleStages_empty_before_960
    (schedule : List Performance) (day : Day) (minute : Nat) (hideEmpty : Bool)
    (h : minute < 960) :
    visibleStages schedule day minute hideEmpty true = [] := by
  simp [visibleStages, h]

/-- C3 witness: a stage with a livestream and a current performance is
still hidden at 12:00 (720 minutes). -/
theorem c3_visibleStages_empty_before_960_witness :
    (720 : Nat) < 960 ∧
    visibleStages [⟨"A", "Coachella Stage", .friday, "12:00", "23:00"⟩]
      .friday 720 true true = [] :=
  ⟨by decide, c3_visibleStages_empty_before_960 _ _ _ _ (by decide)⟩

/-- C4: with the hide-no-stream toggle enabled and minute at least 960, the
visible stages are exactly the stages surviving the hide-empty step that
resolve a livestream link for the selected day; a dataset containing only a
stage absent from the livestream registry yields the empty list. -/
theorem c4_visibleStages_keep_linked :
    (∀ (schedule : List Performance) (day : Day) (minute : Nat) (hideEmpty : Bool),
      960 ≤ minute →
      visibleStages schedule day minute hideEmpty true =
        (stagesAfterHideEmpty schedule day minute hideEmpty).filter
          (fun stage => (getLivestreamLink day.name stage).isSome)) ∧
    visibleStages [⟨"B", "Foo", .friday, "17:00", "18:00"⟩] .friday 1020 false true
      = [] := by
  have main : ∀ (schedule : List Performance) (day : Day) (minute : Nat)
      (hideEmpty : Bool), 960 ≤ minute →
      visibleStages schedule day minute hideEmpty true =
        (stagesAfterHideEmpty schedule day minute hideEmpty).filter
          (fun stage => (getLivestreamLink day.name stage).isSome) := by
    intro schedule day minute he h
    simp only [visibleStages, if_true]
    rw [if_neg (by omega), List.filter_filter]
    apply List.filter_congr
    intro s _
    by_cases hs : s = "Yuma"
    · subst hs
      simp [getLivestreamLink_yuma]
    · simp [hs]
  refine ⟨main, ?_⟩
  rw [main _ _ _ _ (by omega)]
  have h1 : stagesAfterHideEmpty [⟨"B", "Foo", .friday, "17:00", "18:00"⟩]
      Day.friday 1020 false = List.mergeSort ["Foo"] strLe := by
    have h0 : firstDedup
        ((List.filter (fun p => decide (p.day = Day.friday))
          [⟨"B", "Foo", .friday, "17:00", "18:00"⟩]).map Performance.stage)
        = ["Foo"] := by decide
    simp only [stagesAfterHideEmpty, stagesForDay, Bool.false_eq_true, if_false, h0]
  rw [h1, List.mergeSort_singleton]
  decide

/-- C4 witness: the filter form instantiated at 17:00 (1020 minutes) on a
one-stage dataset. -/
theorem c4_visibleStages_keep_linked_witness :
    (960 : Nat) ≤ 1020 ∧
    visibleStages [⟨"B", "Foo", .friday, "17:00", "18:00"⟩] Day.friday 1020
        false true =
      (stagesAfterHideEmpty [⟨"B", "Foo", .friday, "17:00", "18:00"⟩]
        Day.friday 1020 false).filter
        (fun stage => (getLivestreamLink Day.friday.name stage).isSome) :=
  ⟨by decide, c4_visibleStages_keep_linked.1 _ Day.friday 1020 false (by decide)⟩

/-- C5: the chronological derivation is a permutation of the schedule,
sorted ascending by (day rank, normalized start minutes) with Friday 0,
Saturday 1, Sunday 2, and stable: two performances with equal day and equal
start minutes occur in the output in their input order. -/
theorem c5_chronological_spec :
    (∀ schedule : List Performance,
      List.Perm (chronologicalPerformances schedule) schedule) ∧
    (∀ schedule : List Performance,
      (chronologicalPerformances schedule).Pairwise (fun a b =>
        dayRank a.day < dayRank b.day ∨
          (dayRank a.day = dayRank b.day ∧
            timeToMinutes a.start ≤ timeToMinutes b.start))) ∧
    (∀ (schedule : List Performance) (a b : Performance),
      a.day = b.day → timeToMinutes a.start = timeToMinutes b.start →
      List.Sublist [a, b] schedule →
      List.Sublist [a, b] (chronologicalPerformances schedule)) := by
  refine ⟨?_, ?_, ?_⟩
  · intro schedule
    exact List.mergeSort_perm schedule chronLe
  · intro schedule
    exact (List.sorted_mergeSort chronLe_trans chronLe_total schedule).imp
      (fun hab => (chronLe_iff _ _).mp hab)
  · intro schedule a b hday hstart hsub
    exact List.pair_sublist_mergeSort chronLe_trans chronLe_total
      ((chronLe_iff a b).mpr (Or.inr ⟨by rw [hday], le_of_eq hstart⟩)) hsub

/-- C5 witness: two tied performances (equal day and start) retain their
input order in the sorted output. -/
theorem c5_chronological_spec_witness :
    List.Sublist
      [⟨"X", "S1", Day.friday, "20:00", "21:00"⟩,
       ⟨"Y", "S2", Day.friday, "20:00", "21:30"⟩]
      (chronologicalPerformances
        [⟨"X", "S1", Day.friday, "20:00", "21:00"⟩,
         ⟨"Y", "S2", Day.friday, "20:00", "21:30"⟩]) :=
  c5_chronological_spec.2.2 _ _ _ rfl (by decide) (List.Sublist.refl _)

/-- C6: the chronological derivation is idempotent: sorting its own output
leaves the list unchanged, for every dataset (tied elements included). -/
theorem c6_chronological_idempotent (schedule : List Performance) :
    chronologicalPerformances (chronologicalPerformances schedule) =
      chronologicalPerformances schedule := by
  unfold chronologicalPerformances
  exact List.mergeSort_of_sorted
    (List.sorted_mergeSort chronLe_trans chronLe_total schedule)

/-- C7: an empty or all-whitespace search term leaves the sequence
unchanged; otherwise the filter keeps, in input order, exactly the
performances whose lowercased artist name contains the lowercased term;
the term "DJ" matches the artist "dj snake". -/
theorem c7_searchFilter_spec :
    (∀ (seq : List Performance) (term : String),
      isBlank term = true → searchFilter seq term = seq) ∧
    (∀ (seq : List Performance) (term : String),
      List.Sublist (searchFilter seq term) seq) ∧
    (∀ (seq : List Performance) (term : String) (p : Performance),
      isBlank term = false →
      (p ∈ searchFilter seq term ↔
        p ∈ seq ∧ strIncludes (strToLower p.artist) (strToLower term) = true)) ∧
    searchFilter [⟨"dj snake", "Sahara", .friday, "22:00", "23:00"⟩] "DJ" =
      [⟨"dj snake", "Sahara", .friday, "22:00", "23:00"⟩] := by
  refine ⟨?_, ?_, ?_, by decide⟩
  · intro seq term h
    unfold searchFilter
    apply List.filter_eq_self.mpr
    intro a _
    simp [h]
  · intro seq term
    exact List.filter_sublist _
  · intro seq term p h
    simp [searchFilter, List.mem_filter, h]

/-- C7 witness: a whitespace-only term keeps the sequence; the term "DJ"
is matched against the artist "dj snake" case-insensitively. -/
theorem c7_searchFilter_spec_witness :
    searchFilter [⟨"dj snake", "Sahara", .friday, "22:00", "23:00"⟩] " " =
      [⟨"dj snake", "Sahara", .friday, "22:00", "23:00"⟩] ∧
    ((⟨"dj snake", "Sahara", .friday, "22:00", "23:00"⟩ : Performance) ∈
        searchFilter [⟨"dj snake", "Sahara", .friday, "22:00", "23:00"⟩] "DJ" ↔
      (⟨"dj snake", "Sahara", .friday, "22:00", "23:00"⟩ : Performance) ∈
          [(⟨"dj snake", "Sahara", .friday, "22:00", "23:00"⟩ : Performance)] ∧
        strIncludes (strToLower "dj snake") (strToLower "DJ") = true) :=
  ⟨c7_searchFilter_spec.1 _ " " (by decide),
   c7_searchFilter_spec.2.2.1 _ "DJ" _ (by decide)⟩

/-- C8: a plain registry entry resolves to its identifier on every day; a
per-day entry resolves by looking the day up in its map (absent day gives
none); an unregistered stage resolves to none; Quasar on Saturday gives the
Saturday identifier, Quasar on Monday gives none, and Yuma always gives
none.  The resolver is total: no error and no fallback identifier. -/
theorem c8_getLivestreamLink_spec :
    (∀ (day stage id : String),
      livestreamLinks.lookup stage = some (.single id) →
      getLivestreamLink day stage = some id) ∧
    (∀ (day stage : String) (m : List (String × String)),
      livestreamLinks.lookup stage = some (.byDay m) →
      getLivestreamLink day stage = m.lookup day) ∧
    (∀ day stage : String,
      livestreamLinks.lookup stage = none → getLivestreamLink day stage = none) ∧
    getLivestreamLink "Saturday" "Quasar" = some "SreThbvUUI8" ∧
    getLivestreamLink "Monday" "Quasar" = none ∧
    (∀ day : String, getLivestreamLink day "Yuma" = none) := by
  refine ⟨?_, ?_, ?_, by decide, by decide, getLivestreamLink_yuma⟩
  · intro day stage id h
    unfold getLivestreamLink
    rw [h]
  · intro day stage m h
    unfold getLivestreamLink
    rw [h]
  · intro day stage h
    unfold getLivestreamLink
    rw [h]

/-- C8 witness: a plain entry resolved on a non-festival day, the per-day
entry resolved through its map, and an unknown stage. -/
theorem c8_getLivestreamLink_spec_witness :
    getLivestreamLink "Monday" "Sahara" = some "afO7r8TQTSw" ∧
    getLivestreamLink "Friday" "Quasar" =
      List.lookup "Friday"
        [("Friday", "1MOJG5VTh-Y"), ("Saturday", "SreThbvUUI8"),
         ("Sunday", "jKWRY1btTOs")] ∧
    getLivestreamLink "Friday" "Nowhere" = none :=
  ⟨c8_getLivestreamLink_spec.1 "Monday" "Sahara" "afO7r8TQTSw" (by decide),
   c8_getLivestreamLink_spec.2.1 "Friday" "Quasar" _ (by decide),
   c8_getLivestreamLink_spec.2.2.1 "Friday" "Nowhere" (by decide)⟩

/-- C9 counterexample: with an external conversion that rejects every date
string, `createFestivalDate` returns an error at minutes 0 on Friday — the
catch branch retries the fallback conversion unguarded, so a failure of the
fallback conversion propagates to the caller, refuting the claim that no
exception ever propagates. -/
theorem c9_counterexample :
    (createFestivalDate (fun _ => Except.error "invalid") Day.friday 0).isOk
      = false := rfl

/-- C9 amended: `createFestivalDate` guards only the primary conversion:
when it succeeds its result is returned; when it fails, the conversion is
retried on the fixed calendar date 2025-04-11 with the same hour and
minute, and that result — whatever it is — is returned.  No exception
propagates whenever the fallback conversion succeeds. -/
theorem c9_createFestivalDate_fallback :
    ∀ (fromZonedTime : String → Except String Nat) (day : Day) (m : Nat),
      ((fromZonedTime (primaryDateStr day m)).isOk = true →
        createFestivalDate fromZonedTime day m =
          fromZonedTime (primaryDateStr day m)) ∧
      ((fromZonedTime (primaryDateStr day m)).isOk = false →
        createFestivalDate fromZonedTime day m =
          fromZonedTime (fallbackDateStr m)) ∧
      ((fromZonedTime (fallbackDateStr m)).isOk = true →
        (createFestivalDate fromZonedTime day m).isOk = true) ∧
      fallbackDateStr m =
        "2025-04-11T" ++ pad2 (m / 60 % 24) ++ ":" ++ pad2 (m % 60) ++ ":00" := by
  intro fz day m
  refine ⟨?_, ?_, ?_, rfl⟩
  · intro h
    unfold createFestivalDate
    cases hfz : fz (primaryDateStr day m) with
    | ok d => rfl
    | error e =>
      rw [hfz] at h
      simp [Except.isOk, Except.toBool] at h
  · intro h
    unfold createFestivalDate
    cases hfz : fz (primaryDateStr day m) with
    | ok d =>
      rw [hfz] at h
      simp [Except.isOk, Except.toBool] at h
    | error e => rfl
  · intro h
    unfold createFestivalDate
    cases hfz : fz (primaryDateStr day m) with
    | ok d => rfl
    | error e => exact h

/-- C9 witness: a conversion that always succeeds, and a conversion that
fails on the primary string but succeeds on the fallback string. -/
theorem c9_createFestivalDate_fallback_witness :
    (createFestivalDate (fun _ => Except.ok 42) Day.friday 900).isOk = true ∧
    createFestivalDate
      (fun s => if s = fallbackDateStr 900 then Except.ok 7
                else Except.error "bad")
      Day.saturday 900 = Except.ok 7 := by
  constructor
  · exact (c9_createFestivalDate_fallback (fun _ => Except.ok 42)
      Day.friday 900).2.2.1 (by decide)
  · have h := (c9_createFestivalDate_fallback
      (fun s => if s = fallbackDateStr 900 then Except.ok 7
                else Except.error "bad")
      Day.saturday 900).2.1 (by decide)
    rw [h]
    simp

/-- C10: under every toggle combination, the visible stage list is a
subsequence of the lexicographically sorted distinct stage list of the
selected day — hence itself sorted and duplicate-free — and every listed
stage has a performance on the selected day. -/
theorem c10_visibleStages_invariant :
    ∀ (schedule : List Performance) (day : Day) (minute : Nat)
      (hideEmpty hideNoStream : Bool),
      (stagesForDay schedule day).Sorted (· < ·) ∧
      (∀ s : String, s ∈ stagesForDay schedule day ↔
        ∃ p ∈ schedule, p.day = day ∧ p.stage = s) ∧
      List.Sublist (visibleStages schedule day minute hideEmpty hideNoStream)
        (stagesForDay schedule day) ∧
      (visibleStages schedule day minute hideEmpty hideNoStream).Sorted (· < ·) ∧
      (visibleStages schedule day minute hideEmpty hideNoStream).Nodup ∧
      (∀ s ∈ visibleStages schedule day minute hideEmpty hideNoStream,
        ∃ p ∈ schedule, p.day = day ∧ p.stage = s) := by
  intro schedule day minute he hn
  have h1 : List.Sublist (stagesAfterHideEmpty schedule day minute he)
      (stagesForDay schedule day) := by
    unfold stagesAfterHideEmpty
    cases he
    · exact List.Sublist.refl _
    · exact List.filter_sublist _
  have hsub : List.Sublist (visibleStages schedule day minute he hn)
      (stagesAfterHideEmpty schedule day minute he) := by
    unfold visibleStages
    cases hn
    · exact List.Sublist.refl _
    · by_cases hm : minute < 960
      · simp only [if_true, if_pos hm]
        exact List.nil_sublist _
      · simp only [if_true, if_neg hm]
        exact List.Sublist.trans (List.filter_sublist _) (List.filter_sublist _)
  have hfinal := List.Sublist.trans hsub h1
  refine ⟨sorted_stagesForDay _ _, fun s => mem_stagesForDay, hfinal, ?_, ?_, ?_⟩
  · exact (sorted_stagesForDay schedule day).sublist hfinal
  · exact (nodup_stagesForDay schedule day).sublist hfinal
  · intro s hs
    exact mem_stagesForDay.mp (hfinal.subset hs)

/-- C10 witness: a concrete dataset whose visible stage appears and indeed
performs on the selected day. -/
theorem c10_visibleStages_invariant_witness :
    ∃ p ∈ [(⟨"A", "Coachella Stage", Day.friday, "12:00", "23:00"⟩ : Performance)],
      p.day = Day.friday ∧ p.stage = "Coachella Stage" := by
  have h0 : firstDedup
      ((List.filter (fun p => decide (p.day = Day.friday))
        [(⟨"A", "Coachella Stage", Day.friday, "12:00", "23:00"⟩ : Performance)]).map
        Performance.stage) = ["Coachella Stage"] := by decide
  have hv : visibleStages
      [(⟨"A", "Coachella Stage", Day.friday, "12:00", "23:00"⟩ : Performance)]
      Day.friday 720 false false = ["Coachella Stage"] := by
    simp only [visibleStages, stagesAfterHideEmpty, stagesForDay,
      Bool.false_eq_true, if_false, h0, List.mergeSort_singleton]
  exact (c10_visibleStages_invariant
      [(⟨"A", "Coachella Stage", Day.friday, "12:00", "23:00"⟩ : Performance)]
      Day.friday 720 false false).2.2.2.2.2
    "Coachella Stage" (by rw [hv]; exact List.mem_singleton_self _)
